import Mathlib

/-!
Verification development for the digital ant farm simulation
(entities: ant.py, colony.py, pheromone.py, ground.py).

Numeric conventions of the shallow embedding:
- Python floats are embedded as exact numbers: `Rat` where the source only
  performs field arithmetic and comparisons (ant, colony), and `Real` where
  the source takes square roots or trigonometric functions (pheromone field
  geometry).  Python float literals such as 0.7 are embedded as the exact
  rationals they denote in the source text (7/10).
- Python `a % b` on floats with positive `b` returns `a - b * floor (a / b)`;
  it is embedded as `fmod` below.
- Python `int(x // g)` for a float `x` and positive integer `g` is the
  mathematical floor of `x / g`; it is embedded with `Int.floor`.
-/

namespace AntFarm

/-- Python float modulo for a positive modulus: `a % b = a - b * ⌊a / b⌋`. -/
def fmod (a b : ℚ) : ℚ := a - b * ⌊a / b⌋

/-! ## AntAgent: src/src/entities/ant.py -/

/-- Ant castes (class AntCaste). -/
inductive AntCaste where
  | worker
  | soldier
  | scout
  | nurse
deriving DecidableEq, Repr

/-- Behavioral states (class AntState). -/
inductive AntState where
  | idle
  | searching
  | returning
  | following_trail
deriving DecidableEq, Repr

/-- State of class Ant.  Fields irrelevant to movement and carrying
(pheromone-manager reference, nest position) are omitted. -/
structure Ant where
  position : ℚ × ℚ
  orientation : ℚ
  energy : ℚ
  carrying_food : Bool
  state : AntState
  caste : AntCaste
  velocity : ℚ
  max_velocity : ℚ
  acceleration : ℚ
  turn_speed : ℚ
  detection_radius : ℚ
  world_bounds : ℚ × ℚ × ℚ × ℚ
deriving DecidableEq, Repr

/-- Ant._apply_caste_modifiers: caste-specific multiplicative modifiers. -/
def apply_caste_modifiers (a : Ant) : Ant :=
  match a.caste with
  | .worker => a
  | .soldier => { a with max_velocity := a.max_velocity * 0.8,
                         detection_radius := a.detection_radius * 1.3 }
  | .scout => { a with max_velocity := a.max_velocity * 1.4,
                       detection_radius := a.detection_radius * 1.5,
                       turn_speed := a.turn_speed * 1.2 }
  | .nurse => { a with max_velocity := a.max_velocity * 0.9,
                       detection_radius := a.detection_radius * 0.8 }

/-- Ant.__init__: the base movement parameters followed by caste modifiers.
The orientation argument is stored as given, without normalization. -/
def Ant.init (position : ℚ × ℚ) (orientation : ℚ) (energy : ℚ := 100)
    (caste : AntCaste := .worker) : Ant :=
  apply_caste_modifiers
    { position := position
      orientation := orientation
      energy := energy
      carrying_food := false
      state := .idle
      caste := caste
      velocity := 0
      max_velocity := 2
      acceleration := 0.5
      turn_speed := 3
      detection_radius := 20
      world_bounds := (0, 0, 800, 600) }

/-- Ant.set_orientation: stores `orientation % 360`. -/
def set_orientation (a : Ant) (o : ℚ) : Ant :=
  { a with orientation := fmod o 360 }

/-- Ant.set_carrying_food: scales max_velocity by 0.7 when picking food up
and divides by 0.7 when putting it down, with no guard on the previous
value of the flag.  This version is the exact-arithmetic idealization of
those lines; the source runs them on IEEE binary64 doubles, where the
literal 0.7 is not representable — see set_carrying_food_f64 below for the
rounding-faithful version. -/
def set_carrying_food (a : Ant) (carrying : Bool) : Ant :=
  if carrying then
    { a with carrying_food := carrying, max_velocity := a.max_velocity * 0.7 }
  else
    { a with carrying_food := carrying, max_velocity := a.max_velocity / 0.7 }

/-- Rounding of a rational to the nearest integer with ties to even (the
IEEE round-to-nearest-even tie rule). -/
def round_half_even (q : ℚ) : ℤ :=
  if q - ⌊q⌋ < 1 / 2 then ⌊q⌋
  else if 1 / 2 < q - ⌊q⌋ then ⌊q⌋ + 1
  else if ⌊q⌋ % 2 = 0 then ⌊q⌋ else ⌊q⌋ + 1

/-- IEEE binary64 rounding of an exact rational intermediate result: the
significand is rounded to 53 bits at the value's binade (round to nearest,
ties to even).  Overflow and subnormals are not modelled; every value this
development applies it to has moderate magnitude. -/
def round64 (x : ℚ) : ℚ :=
  if x = 0 then 0
  else if x < 0 then
    -((round_half_even (|x| / 2 ^ (Int.log 2 |x| - 52)) : ℚ) *
      2 ^ (Int.log 2 |x| - 52))
  else
    (round_half_even (x / 2 ^ (Int.log 2 x - 52)) : ℚ) *
      2 ^ (Int.log 2 x - 52)

/-- Ant.set_carrying_food under IEEE binary64 arithmetic, the semantics the
source actually runs: max_velocity is a double, the literal 0.7 denotes the
binary64 value nearest 7/10, and the multiplication and the division each
round their exact result back to binary64. -/
def set_carrying_food_f64 (a : Ant) (carrying : Bool) : Ant :=
  if carrying then
    { a with carrying_food := carrying,
             max_velocity := round64 (a.max_velocity * round64 0.7) }
  else
    { a with carrying_food := carrying,
             max_velocity := round64 (a.max_velocity / round64 0.7) }

/-- An ant whose max_velocity is the binary64 double nearest 1.6 — exactly
the stored max velocity of a soldier in the source, since 2.0 * 0.8
evaluates to the double 1.6 in binary64. -/
def soldier_speed_ant : Ant :=
  { Ant.init (0, 0) 0 with max_velocity := 3602879701896397 / 2 ^ 51 }

/-- The angle difference computed at the start of Ant.turn_towards:
`(target - orientation) % 360`, folded into `(-180, 180]`. -/
def angle_diff (a : Ant) (target : ℚ) : ℚ :=
  let d := fmod (target - a.orientation) 360
  if 180 < d then d - 360 else d

/-- Ant.turn_towards: snaps to the target when the angle difference is within
the turn speed (storing the target angle as given), otherwise rotates by the
turn speed in the shorter direction and normalizes by `% 360`. -/
def turn_towards (a : Ant) (target : ℚ) : Ant :=
  if |angle_diff a target| ≤ a.turn_speed then
    { a with orientation := target }
  else
    { a with orientation := fmod (a.orientation +
        (if 0 < angle_diff a target then 1 else -1) * a.turn_speed) 360 }

/-- The orientation update inside Ant.random_walk, taken when the sampled
uniform variate falls below the randomness threshold; `turn` stands for the
sampled perturbation in [-30, 30]. -/
def random_walk_turn (a : Ant) (turn : ℚ) : Ant :=
  { a with orientation := fmod (a.orientation + turn) 360 }

/-! ## Colony: src/src/entities/colony.py

The colony state keeps the fields that the lifecycle, economy and spawning
operations read or write.  Live adult ants are represented by the list of
their castes (their random spawn positions and identity-keyed health/lifespan
side tables play no role in the claims below and are omitted); eggs and pupae
keep the full record dictionaries of the source. -/

/-- An entry of Colony._eggs or Colony._pupae. -/
structure BroodRec where
  created_at : ℕ
  hatch_tick : ℕ
  caste : AntCaste
deriving DecidableEq, Repr

/-- State of class Colony (the subset read or written by lay_egg, hatching,
spawn_ant, spawn_multiple_ants and receive_food). -/
structure Colony where
  max_population : ℕ
  ticks_per_second : ℕ
  egg_laying_interval : ℤ
  egg_laying_cooldown : ℤ
  egg_duration : ℕ
  pupa_duration : ℕ
  food_storage : ℚ
  max_food_storage : ℚ
  food_consumption_rate : ℚ
  ants : List AntCaste
  eggs : List BroodRec
  pupae : List BroodRec
  current_tick : ℕ
  total_food_collected : ℚ
  total_ants_spawned : ℕ
  experience_points : ℚ
  development_level : ℕ
deriving DecidableEq, Repr

/-- Colony.__init__ with the source defaults. -/
def Colony.init (max_population : ℕ := 100) : Colony :=
  { max_population := max_population
    ticks_per_second := 30
    egg_laying_interval := 60
    egg_laying_cooldown := 0
    egg_duration := 900
    pupa_duration := 900
    food_storage := 81000
    max_food_storage := 100000
    food_consumption_rate := 0.01
    ants := []
    eggs := []
    pupae := []
    current_tick := 0
    total_food_collected := 0
    total_ants_spawned := 0
    experience_points := 0
    development_level := 1 }

/-- Colony.population: the number of live adult ants. -/
def Colony.population (c : Colony) : ℕ := c.ants.length

/-- The brood total guarded by Colony.lay_egg:
population + queued eggs + queued pupae. -/
def Colony.brood_total (c : Colony) : ℕ :=
  c.population + c.eggs.length + c.pupae.length

/-- Colony.lay_egg: fails when population + eggs + pupae is at or above
max_population, otherwise appends an egg hatching egg_duration ticks later. -/
def lay_egg (c : Colony) (caste : AntCaste := .worker) : Bool × Colony :=
  if c.max_population ≤ c.population + c.eggs.length + c.pupae.length then
    (false, c)
  else
    (true, { c with eggs := c.eggs ++
      [{ created_at := c.current_tick,
         hatch_tick := c.current_tick + c.egg_duration,
         caste := caste }] })

/-- Colony._get_caste_food_cost. -/
def get_caste_food_cost (caste : AntCaste) : ℚ :=
  match caste with
  | .worker => 10
  | .soldier => 15
  | .scout => 12
  | .nurse => 8

/-- Colony.spawn_ant: fails (returning None and leaving the colony unchanged)
when the adult population is at capacity or the food storage is below the
caste cost; otherwise appends the ant and deducts the cost. -/
def spawn_ant (c : Colony) (caste : AntCaste := .worker) :
    Option AntCaste × Colony :=
  if c.max_population ≤ c.population then
    (none, c)
  else if c.food_storage < get_caste_food_cost caste then
    (none, c)
  else
    (some caste,
     { c with ants := c.ants ++ [caste],
              total_ants_spawned := c.total_ants_spawned + 1,
              food_storage := c.food_storage - get_caste_food_cost caste })

/-- Colony.spawn_multiple_ants: calls spawn_ant count times, stopping at the
first failure. -/
def spawn_multiple_ants (c : Colony) (caste : AntCaste) (count : ℕ) :
    List AntCaste × Colony :=
  match count with
  | 0 => ([], c)
  | n + 1 =>
    match spawn_ant c caste with
    | (none, c₁) => ([], c₁)
    | (some a, c₁) =>
      let rest := spawn_multiple_ants c₁ caste n
      (a :: rest.1, rest.2)

/-- Colony.receive_food: clamps the added amount to the available storage
space and accrues experience; returns the amount actually added. -/
def receive_food (c : Colony) (amount : ℚ) : ℚ × Colony :=
  let space_available := c.max_food_storage - c.food_storage
  let actual_amount := min amount space_available
  (actual_amount,
   { c with food_storage := c.food_storage + actual_amount,
            total_food_collected := c.total_food_collected + actual_amount,
            experience_points := c.experience_points + actual_amount * 0.1 })

/-- The caller-invoked colony operations used to build reachable states. -/
inductive ColonyOp where
  | lay (caste : AntCaste)
  | spawn (caste : AntCaste)
  | feed (amount : ℚ)
deriving Repr

/-- Apply one caller-invoked operation, discarding the returned value. -/
def apply_op (c : Colony) (op : ColonyOp) : Colony :=
  match op with
  | .lay caste => (lay_egg c caste).2
  | .spawn caste => (spawn_ant c caste).2
  | .feed amount => (receive_food c amount).2

/-- Apply a sequence of caller-invoked operations from left to right. -/
def apply_ops (c : Colony) (ops : List ColonyOp) : Colony :=
  ops.foldl apply_op c

/-! ## Pheromone field: src/src/entities/pheromone.py

The geometry here uses `Real.sqrt`, `Real.cos` and `Real.sin`, so the
definitions of this section are noncomputable and predicates over reals use
classical decidability.  Wall-clock time (`time.time()`) is passed explicitly
as a `now` parameter; a pheromone's age is `now - creation_time`. -/

section PheromoneField

open Classical

/-- Pheromone types (class PheromoneType). -/
inductive PheromoneType where
  | food_trail
  | home_trail
  | danger
deriving DecidableEq, BEq, Repr

/-- State of class Pheromone.  The field names follow the underscored
attributes of Pheromone.__init__. -/
structure Pheromone where
  position : ℝ × ℝ
  type : PheromoneType
  strength : ℝ
  max_strength : ℝ
  decay_rate : ℝ
  creation_time : ℝ
  radius_of_influence : ℝ
  can_spread : Bool
  spread_radius : ℝ
  spread_strength_factor : ℝ
  spread_delay : ℝ
  has_spread : Bool
  is_spread_deposit : Bool

/-- Pheromone.__init__: stores all arguments verbatim (no clamping),
sets max_strength to the initial strength, defaults spread_radius to twice
the influence radius when absent, and records the creation time. -/
def Pheromone.init (position : ℝ × ℝ) (type : PheromoneType)
    (strength : ℝ := 100) (decay_rate : ℝ := 1)
    (radius_of_influence : ℝ := 20) (can_spread : Bool := true)
    (spread_radius : Option ℝ := none) (spread_strength_factor : ℝ := 0.4)
    (spread_delay : ℝ := 2) (is_spread_deposit : Bool := false)
    (now : ℝ := 0) : Pheromone :=
  { position := position
    type := type
    strength := strength
    max_strength := strength
    decay_rate := decay_rate
    creation_time := now
    radius_of_influence := radius_of_influence
    can_spread := can_spread
    spread_radius := spread_radius.getD (radius_of_influence * 2)
    spread_strength_factor := spread_strength_factor
    spread_delay := spread_delay
    has_spread := false
    is_spread_deposit := is_spread_deposit }

/-- Pheromone.age: seconds since creation, at wall-clock time `now`. -/
def Pheromone.age (p : Pheromone) (now : ℝ) : ℝ := now - p.creation_time

/-- Pheromone.should_spread: eligible to spread at time `now`. -/
def should_spread (p : Pheromone) (now : ℝ) : Prop :=
  p.can_spread = true ∧ p.has_spread = false ∧ p.is_spread_deposit = false ∧
    p.spread_delay ≤ p.age now

/-- Pheromone.mark_as_spread. -/
def mark_as_spread (p : Pheromone) : Pheromone := { p with has_spread := true }

/-- Pheromone.update: subtract the decay rate from the strength.  The
boolean removal signal of the source is the predicate
`(Pheromone.update p).strength ≤ 0` used in update_all below. -/
def Pheromone.update (p : Pheromone) : Pheromone :=
  { p with strength := p.strength - p.decay_rate }

/-- Pheromone.reinforce: add strength, capped at max_strength. -/
def reinforce (p : Pheromone) (additional_strength : ℝ) : Pheromone :=
  { p with strength := min p.max_strength (p.strength + additional_strength) }

/-- Pheromone.distance_to. -/
noncomputable def distance_to (p : Pheromone) (position : ℝ × ℝ) : ℝ :=
  Real.sqrt ((position.1 - p.position.1) * (position.1 - p.position.1) +
             (position.2 - p.position.2) * (position.2 - p.position.2))

/-- Pheromone.is_within_range: the influence radius covers the position. -/
def is_within_range (p : Pheromone) (position : ℝ × ℝ) : Prop :=
  distance_to p position ≤ p.radius_of_influence

/-- Pheromone.get_influence_strength: strength with linear distance falloff,
zero outside the influence radius. -/
noncomputable def get_influence_strength (p : Pheromone) (position : ℝ × ℝ) : ℝ :=
  if p.radius_of_influence < distance_to p position then 0
  else p.strength * (1 - distance_to p position / p.radius_of_influence)

/-- World bounds (x_min, y_min, x_max, y_max). -/
structure WorldBounds where
  x_min : ℝ
  y_min : ℝ
  x_max : ℝ
  y_max : ℝ

/-- The bounds check of PheromoneManager._create_spread_deposits. -/
def in_world_bounds (wb : WorldBounds) (pos : ℝ × ℝ) : Prop :=
  wb.x_min ≤ pos.1 ∧ pos.1 ≤ wb.x_max ∧ wb.y_min ≤ pos.2 ∧ pos.2 ≤ wb.y_max

/-- State of class PheromoneManager.  The source also keeps an incrementally
maintained spatial grid `_spatial_grid`; since pheromone positions are never
mutated and add_pheromone/remove_pheromone update the flat list and the grid
together, the grid bucket of a cell always equals the flat list filtered to
that cell, and the embedding derives it that way (spatial_grid below). -/
structure PheromoneManager where
  world_bounds : WorldBounds
  pheromones : List Pheromone

/-- PheromoneManager.__init__ with the source default bounds. -/
def PheromoneManager.init
    (world_bounds : WorldBounds := ⟨0, 0, 800, 600⟩) : PheromoneManager :=
  { world_bounds := world_bounds, pheromones := [] }

/-- PheromoneManager._get_cell_key: `int(x // 40)` of both coordinates
(the grid size is the constant 40). -/
noncomputable def get_cell_key (position : ℝ × ℝ) : ℤ × ℤ :=
  (⌊position.1 / 40⌋, ⌊position.2 / 40⌋)

/-- Python range(lo, hi) over integers. -/
def int_range (lo hi : ℤ) : List ℤ :=
  (List.range (hi - lo).toNat).map (fun i : ℕ => lo + (i : ℤ))

/-- PheromoneManager._get_nearby_cells: all cell keys within
`int(radius // 40) + 1` rings of the center cell.  The source collects the
keys into a set; distinct offsets give distinct keys, so the list below has
the same members, and only membership is used in the statements. -/
noncomputable def get_nearby_cells (position : ℝ × ℝ) (radius : ℝ) :
    List (ℤ × ℤ) :=
  let center := get_cell_key position
  let cells_needed : ℤ := ⌊radius / 40⌋ + 1
  (int_range (-cells_needed) (cells_needed + 1)).flatMap (fun dx =>
    (int_range (-cells_needed) (cells_needed + 1)).map (fun dy =>
      (center.1 + dx, center.2 + dy)))

/-- The grid bucket of a cell (see the PheromoneManager docstring). -/
noncomputable def spatial_grid (m : PheromoneManager) (cell : ℤ × ℤ) :
    List Pheromone :=
  m.pheromones.filter (fun p => decide (get_cell_key p.position = cell))

/-- The type filter of get_pheromones_in_range: skip the pheromone when a
filter type is given and differs from its type. -/
def matches_filter (filter_type : Option PheromoneType) (p : Pheromone) : Bool :=
  match filter_type with
  | none => true
  | some t => decide (p.type = t)

/-- PheromoneManager.get_pheromones_in_range: scan the nearby grid cells and
keep the pheromones of matching type whose influence radius covers the query
position and whose distance to it is at most the query radius. -/
noncomputable def get_pheromones_in_range (m : PheromoneManager)
    (position : ℝ × ℝ) (radius : ℝ)
    (pheromone_type : Option PheromoneType := none) : List Pheromone :=
  (get_nearby_cells position radius).flatMap (fun cell =>
    (spatial_grid m cell).filter (fun p =>
      matches_filter pheromone_type p &&
      decide (is_within_range p position) &&
      decide (distance_to p position ≤ radius)))

/-- One iteration of the gradient loop of
PheromoneManager.get_pheromone_direction: a pheromone at distance zero is
skipped, the others contribute their unit direction vector weighted by the
influence strength. -/
noncomputable def gradient_step (position : ℝ × ℝ) (acc : ℝ × ℝ)
    (p : Pheromone) : ℝ × ℝ :=
  if distance_to p position = 0 then acc
  else
    (acc.1 + (p.position.1 - position.1) /
        Real.sqrt ((p.position.1 - position.1) * (p.position.1 - position.1) +
          (p.position.2 - position.2) * (p.position.2 - position.2)) *
        get_influence_strength p position,
     acc.2 + (p.position.2 - position.2) /
        Real.sqrt ((p.position.1 - position.1) * (p.position.1 - position.1) +
          (p.position.2 - position.2) * (p.position.2 - position.2)) *
        get_influence_strength p position)

/-- The gradient accumulation loop of
PheromoneManager.get_pheromone_direction over a list of pheromones. -/
noncomputable def gradient_sum (position : ℝ × ℝ) (ps : List Pheromone) :
    ℝ × ℝ :=
  ps.foldl (gradient_step position) (0, 0)

/-- The final normalization of get_pheromone_direction: the unit vector in
the direction of the summed gradient, or none when the gradient length is
not positive. -/
noncomputable def normalize_gradient (g : ℝ × ℝ) : Option (ℝ × ℝ) :=
  if 0 < Real.sqrt (g.1 * g.1 + g.2 * g.2) then
    some (g.1 / Real.sqrt (g.1 * g.1 + g.2 * g.2),
          g.2 / Real.sqrt (g.1 * g.1 + g.2 * g.2))
  else none

/-- PheromoneManager.get_pheromone_direction: normalized gradient of the
pheromones in range, or none when no pheromone is in range or the summed
gradient has zero length. -/
noncomputable def get_pheromone_direction (m : PheromoneManager)
    (position : ℝ × ℝ) (pheromone_type : PheromoneType) (radius : ℝ := 50) :
    Option (ℝ × ℝ) :=
  if get_pheromones_in_range m position radius (some pheromone_type) = [] then
    none
  else
    normalize_gradient (gradient_sum position
      (get_pheromones_in_range m position radius (some pheromone_type)))

/-- PheromoneManager.add_pheromone: construct the pheromone and append it
(the source also inserts it into the spatial grid; see spatial_grid). -/
def add_pheromone (m : PheromoneManager) (position : ℝ × ℝ)
    (type : PheromoneType) (strength : ℝ := 100) (decay_rate : ℝ := 1)
    (radius_of_influence : ℝ := 20) (can_spread : Bool := true)
    (spread_radius : Option ℝ := none) (spread_strength_factor : ℝ := 0.4)
    (spread_delay : ℝ := 2) (is_spread_deposit : Bool := false)
    (now : ℝ := 0) : PheromoneManager × Pheromone :=
  let p := Pheromone.init position type strength decay_rate radius_of_influence
    can_spread spread_radius spread_strength_factor spread_delay
    is_spread_deposit now
  ({ m with pheromones := m.pheromones ++ [p] }, p)

/-- The position of the i-th spread deposit in
PheromoneManager._create_spread_deposits: evenly spaced on the circle of
radius spread_radius around the parent. -/
noncomputable def spread_child_position (p : Pheromone) (i : ℕ) : ℝ × ℝ :=
  let angle := 2 * Real.pi * i / 8
  (p.position.1 + Real.cos angle * p.spread_radius,
   p.position.2 + Real.sin angle * p.spread_radius)

/-- The spread deposit created at a given position: the add_pheromone call
of _create_spread_deposits (strength from the parent's max strength and
spread factor, the parent's decay rate, 0.8 times the parent's influence
radius, cannot spread further, marked as a spread deposit). -/
noncomputable def spread_child (p : Pheromone) (pos : ℝ × ℝ) (now : ℝ) :
    Pheromone :=
  Pheromone.init pos p.type (p.max_strength * p.spread_strength_factor)
    p.decay_rate (p.radius_of_influence * 0.8) false none 0.4 2 true now

/-- The spread deposits actually created for a parent: one per angle index
whose position falls inside the world bounds. -/
noncomputable def spread_children (wb : WorldBounds) (p : Pheromone)
    (now : ℝ) : List Pheromone :=
  ((List.range 8).filter (fun i =>
      decide (in_world_bounds wb (spread_child_position p i)))).map
    (fun i => spread_child p (spread_child_position p i) now)

/-- PheromoneManager._create_spread_deposits acting on the pheromone stored
at index `i` (list indices model Python object identity): a no-op unless the
pheromone should spread, otherwise the surviving-in-bounds children are
appended and the parent is marked as having spread. -/
noncomputable def create_spread_deposits (m : PheromoneManager) (i : ℕ)
    (now : ℝ) : PheromoneManager :=
  match m.pheromones.get? i with
  | none => m
  | some p =>
    if should_spread p now then
      { m with pheromones :=
          m.pheromones.set i (mark_as_spread p) ++
            spread_children m.world_bounds p now }
    else m

/-- PheromoneManager.update_all: decay every pheromone, create the spread
deposits of every eligible pheromone and mark it, then drop the pheromones
whose decayed strength is at or below zero (the newly created children are
not in the removal list collected before spreading). -/
noncomputable def update_all (m : PheromoneManager) (now : ℝ) :
    PheromoneManager :=
  let ticked := m.pheromones.map Pheromone.update
  let marked := ticked.map (fun p =>
    if should_spread p now then mark_as_spread p else p)
  let children := ticked.flatMap (fun p =>
    if should_spread p now then spread_children m.world_bounds p now else [])
  { m with pheromones :=
      marked.filter (fun p => decide (0 < p.strength)) ++ children }

/-- The membership condition of the spec sentence for QueryInRange, written
from the spec words for the refinement comparison: influence radius covers
the query point and the distance is within the larger of the query radius
and the pheromone's own influence radius. -/
def spec_query_qualifies (p : Pheromone) (position : ℝ × ℝ) (radius : ℝ) :
    Prop :=
  distance_to p position ≤ p.radius_of_influence ∧
    distance_to p position ≤ max radius p.radius_of_influence

/-! ## Ground system: src/src/entities/ground.py

GroundSystem.get_pheromone_direction reads trail_quality, calls mark_usage
and accumulates a quality-weighted gradient.  The enhanced Pheromone class
carrying trail_quality and usage_count is referenced by ground.py (and by
pheromone_renderer.py and main.py) but its definition is not among the
source files; the structure and mark_usage below are modelled from the
spec for exactly those members. -/

/-- Modelled from the spec: the enhanced Pheromone of the ground system,
with trailQuality (range [1.0, 3.0], initially 1.0) and usageCount
(initially 0) in addition to the base fields used by the gradient loop. -/
structure GroundPheromone where
  position : ℝ × ℝ
  type : PheromoneType
  strength : ℝ
  max_strength : ℝ
  radius_of_influence : ℝ
  trail_quality : ℝ
  usage_count : ℕ

/-- Modelled from the spec: Pheromone.mark_usage of the enhanced class
(its definition is not among the source files).  Each use increments the
usage count and raises the trail quality with diminishing returns, capped
at 3.0; the spec fixes no exact increment formula, and the one chosen here
adds a tenth of the remaining headroom below the cap. -/
noncomputable def mark_usage (p : GroundPheromone) : GroundPheromone :=
  { p with usage_count := p.usage_count + 1,
           trail_quality :=
             min 3 (p.trail_quality + (3 - p.trail_quality) * 0.1) }

/-- Pheromone.distance_to of the enhanced class (same formula as the base
class). -/
noncomputable def ground_distance_to (p : GroundPheromone)
    (position : ℝ × ℝ) : ℝ :=
  Real.sqrt ((position.1 - p.position.1) * (position.1 - p.position.1) +
             (position.2 - p.position.2) * (position.2 - p.position.2))

/-- Modelled from the spec: get_influence_strength of the enhanced class.
The spec weights the gradient contribution by distance-based linear falloff
times strength times trailQuality, and the loop comments of
GroundSystem.get_pheromone_direction state that the influence already
includes the trail quality. -/
noncomputable def ground_influence_strength (p : GroundPheromone)
    (position : ℝ × ℝ) : ℝ :=
  if p.radius_of_influence < ground_distance_to p position then 0
  else p.strength * (1 - ground_distance_to p position / p.radius_of_influence) *
        p.trail_quality

/-- One iteration of the loop of GroundSystem.get_pheromone_direction:
a pheromone at distance zero is skipped unchanged; the others contribute
their unit direction weighted by influence times trail quality, add to the
total weight, and are marked as used. -/
noncomputable def ground_gradient_step (position : ℝ × ℝ)
    (acc : ((ℝ × ℝ) × ℝ) × List GroundPheromone) (p : GroundPheromone) :
    ((ℝ × ℝ) × ℝ) × List GroundPheromone :=
  if ground_distance_to p position = 0 then (acc.1, acc.2 ++ [p])
  else
    (((acc.1.1.1 + (p.position.1 - position.1) /
          Real.sqrt ((p.position.1 - position.1) * (p.position.1 - position.1) +
            (p.position.2 - position.2) * (p.position.2 - position.2)) *
          (ground_influence_strength p position * p.trail_quality),
       acc.1.1.2 + (p.position.2 - position.2) /
          Real.sqrt ((p.position.1 - position.1) * (p.position.1 - position.1) +
            (p.position.2 - position.2) * (p.position.2 - position.2)) *
          (ground_influence_strength p position * p.trail_quality)),
      acc.1.2 + ground_influence_strength p position * p.trail_quality),
     acc.2 ++ [mark_usage p])

/-- The loop of GroundSystem.get_pheromone_direction over the nearby
pheromones: accumulates the quality-weighted gradient and the total weight,
and marks every pheromone at nonzero distance as used; the returned list
holds the post-loop states of the scanned pheromones in order. -/
noncomputable def ground_gradient_loop (position : ℝ × ℝ)
    (nearby : List GroundPheromone) :
    ((ℝ × ℝ) × ℝ) × List GroundPheromone :=
  nearby.foldl (ground_gradient_step position) (((0, 0), 0), [])

/-- GroundSystem.get_pheromone_direction given the list of nearby pheromones
returned by its range query: the normalized quality-weighted gradient (or
none on an empty list or a zero-length gradient) paired with the post-call
states of the nearby pheromones. -/
noncomputable def ground_get_pheromone_direction (position : ℝ × ℝ)
    (nearby : List GroundPheromone) :
    Option (ℝ × ℝ) × List GroundPheromone :=
  if nearby = [] then (none, nearby)
  else
    (normalize_gradient (ground_gradient_loop position nearby).1.1,
     (ground_gradient_loop position nearby).2)

end PheromoneField

/-! ## Theorems: fmod and the ant movement model -/

theorem fmod_nonneg (a : ℚ) {b : ℚ} (hb : 0 < b) : 0 ≤ fmod a b := by
  have h := Int.floor_le (a / b)
  have : (⌊a / b⌋ : ℚ) * b ≤ a / b * b := by
    exact mul_le_mul_of_nonneg_right h (le_of_lt hb)
  rw [div_mul_cancel₀ a (ne_of_gt hb)] at this
  unfold fmod
  nlinarith

theorem fmod_lt (a : ℚ) {b : ℚ} (hb : 0 < b) : fmod a b < b := by
  have h := Int.lt_floor_add_one (a / b)
  have : a / b * b < ((⌊a / b⌋ : ℚ) + 1) * b := by
    exact mul_lt_mul_of_pos_right h hb
  rw [div_mul_cancel₀ a (ne_of_gt hb)] at this
  unfold fmod
  nlinarith

/-- Decomposition of `fmod`: the value differs from `a` by an integer
multiple of the modulus. -/
theorem fmod_sub_eq (a b : ℚ) : ∃ k : ℤ, fmod a b = a + b * k :=
  ⟨-⌊a / b⌋, by unfold fmod; push_cast; ring⟩

theorem angle_diff_mem (a : Ant) (target : ℚ) :
    -180 < angle_diff a target ∧ angle_diff a target ≤ 180 := by
  unfold angle_diff
  have h1 := fmod_nonneg (target - a.orientation) (show (0:ℚ) < 360 by norm_num)
  have h2 := fmod_lt (target - a.orientation) (show (0:ℚ) < 360 by norm_num)
  by_cases h : 180 < fmod (target - a.orientation) 360
  · rw [if_pos h]
    constructor <;> linarith
  · rw [if_neg h]
    push_neg at h
    constructor <;> linarith

theorem angle_diff_decomp (a : Ant) (target : ℚ) :
    ∃ k : ℤ, target = a.orientation + angle_diff a target + 360 * k := by
  obtain ⟨k₀, hk⟩ := fmod_sub_eq (target - a.orientation) 360
  unfold angle_diff
  by_cases h : 180 < fmod (target - a.orientation) 360
  · rw [if_pos h]
    exact ⟨-k₀ + 1, by rw [hk]; push_cast; ring⟩
  · rw [if_neg h]
    exact ⟨-k₀, by rw [hk]; push_cast; ring⟩

/-- C9, amended.  In the source, set_orientation and the random-walk
perturbation normalize the heading to [0, 360), and the turn_towards angle
difference is normalized to (-180, 180] with the rotation bounded by the
turn speed in the direction of that difference; but when the difference is
within the turn speed, turn_towards stores the target angle as given
(without normalization), and the constructor stores the initial heading as
given, so those two paths can leave the heading outside [0, 360). -/
theorem heading_update_spec (a : Ant) (o target turn : ℚ) :
    (0 ≤ (set_orientation a o).orientation ∧
      (set_orientation a o).orientation < 360) ∧
    (0 ≤ (random_walk_turn a turn).orientation ∧
      (random_walk_turn a turn).orientation < 360) ∧
    (-180 < angle_diff a target ∧ angle_diff a target ≤ 180) ∧
    (|angle_diff a target| ≤ a.turn_speed →
      (turn_towards a target).orientation = target) ∧
    (a.turn_speed < |angle_diff a target| →
      0 ≤ (turn_towards a target).orientation ∧
        (turn_towards a target).orientation < 360) ∧
    (0 ≤ a.turn_speed →
      ∃ (δ : ℚ) (k : ℤ), |δ| ≤ a.turn_speed ∧ 0 ≤ δ * angle_diff a target ∧
        (turn_towards a target).orientation =
          a.orientation + δ + 360 * k) := by
  have h360 : (0:ℚ) < 360 := by norm_num
  refine ⟨⟨fmod_nonneg o h360, fmod_lt o h360⟩,
    ⟨fmod_nonneg _ h360, fmod_lt _ h360⟩, angle_diff_mem a target, ?_, ?_, ?_⟩
  · intro h
    unfold turn_towards
    rw [if_pos h]
  · intro h
    unfold turn_towards
    rw [if_neg (not_le.mpr h)]
    exact ⟨fmod_nonneg _ h360, fmod_lt _ h360⟩
  · intro hts
    by_cases h : |angle_diff a target| ≤ a.turn_speed
    · obtain ⟨k, hk⟩ := angle_diff_decomp a target
      refine ⟨angle_diff a target, k, h, mul_self_nonneg _, ?_⟩
      unfold turn_towards
      rw [if_pos h]
      exact hk
    · obtain ⟨k₁, hk₁⟩ :=
        fmod_sub_eq (a.orientation +
          (if 0 < angle_diff a target then 1 else -1) * a.turn_speed) 360
      refine ⟨(if 0 < angle_diff a target then 1 else -1) * a.turn_speed, k₁,
        ?_, ?_, ?_⟩
      · by_cases hd : 0 < angle_diff a target
        · rw [if_pos hd]
          rw [abs_of_nonneg (by linarith)]
          linarith
        · rw [if_neg hd]
          rw [show (-1 : ℚ) * a.turn_speed = -a.turn_speed by ring,
            abs_neg, abs_of_nonneg hts]
      · by_cases hd : 0 < angle_diff a target
        · rw [if_pos hd]
          nlinarith
        · rw [if_neg hd]
          push_neg at hd
          nlinarith
      · unfold turn_towards
        rw [if_neg h, hk₁]

/-- C9, counterexample to the claim as stated: turn_towards from heading 0
with turn speed 3 toward the target angle 360 snaps to the unnormalized
heading 360, which is not in [0, 360); and the constructor stores the
heading 400 as given. -/
theorem heading_update_counterexample :
    (turn_towards (Ant.init (0, 0) 0) 360).orientation = 360 ∧
    ¬ (turn_towards (Ant.init (0, 0) 0) 360).orientation < 360 ∧
    (Ant.init (0, 0) 400).orientation = 400 ∧
    ¬ (Ant.init (0, 0) 400).orientation < 360 := by
  have ho : (Ant.init (0, 0) 0).orientation = 0 := rfl
  have hts : (Ant.init (0, 0) 0).turn_speed = 3 := rfl
  have hd : angle_diff (Ant.init (0, 0) 0) 360 = 0 := by
    unfold angle_diff
    rw [ho]
    norm_num [fmod]
  have ht : (turn_towards (Ant.init (0, 0) 0) 360).orientation = 360 := by
    unfold turn_towards
    rw [hd, hts]
    rw [if_pos (by norm_num)]
  have h400 : (Ant.init (0, 0) 400).orientation = 400 := rfl
  exact ⟨ht, by rw [ht]; norm_num, h400, by rw [h400]; norm_num⟩

theorem set_carrying_food_cycle_max_velocity (a : Ant) :
    (set_carrying_food (set_carrying_food a true) false).max_velocity =
      a.max_velocity := by
  simp only [set_carrying_food, if_pos, if_neg, Bool.true_eq_false,
    ite_true, ite_false]
  rw [mul_div_assoc]
  norm_num

theorem int_log2_eq {x : ℚ} {e : ℤ} (hx : 0 < x) (h1 : (2 : ℚ) ^ e ≤ x)
    (h2 : x < (2 : ℚ) ^ (e + 1)) : Int.log 2 x = e := by
  have ha : e ≤ Int.log 2 x :=
    (Int.zpow_le_iff_le_log (by norm_num) hx).mp (by exact_mod_cast h1)
  have hb : Int.log 2 x < e + 1 :=
    (Int.lt_zpow_iff_log_lt (by norm_num) hx).mp (by exact_mod_cast h2)
  omega

theorem round64_pos_eval {x : ℚ} {e n : ℤ} (hx : 0 < x)
    (h1 : (2 : ℚ) ^ e ≤ x) (h2 : x < (2 : ℚ) ^ (e + 1))
    (hn : round_half_even (x / 2 ^ (e - 52)) = n) :
    round64 x = (n : ℚ) * 2 ^ (e - 52) := by
  unfold round64
  rw [if_neg (ne_of_gt hx), if_neg (not_lt.mpr (le_of_lt hx)),
    int_log2_eq hx h1 h2, hn]

/-- The double literal 0.7 of the source: 7/10 rounded to binary64. -/
theorem round64_seven_tenths :
    round64 (0.7 : ℚ) = 3152519739159347 / 2 ^ 52 := by
  have h := round64_pos_eval (x := (0.7 : ℚ)) (e := -1)
    (n := 6305039478318694) (by norm_num) (by norm_num) (by norm_num) ?_
  · rw [h]
    norm_num
  · have harg : (0.7 : ℚ) / 2 ^ ((-1 : ℤ) - 52) = 31525197391593472 / 5 := by
      norm_num
    unfold round_half_even
    rw [harg]
    norm_num

/-- Binary64 evaluation of (double 1.6) * (double 0.7). -/
theorem round64_mul_step :
    round64 ((3602879701896397 / 2 ^ 51 : ℚ) * (3152519739159347 / 2 ^ 52)) =
      5044031582654955 / 2 ^ 52 := by
  have h := round64_pos_eval
    (x := (3602879701896397 / 2 ^ 51 : ℚ) * (3152519739159347 / 2 ^ 52))
    (e := 0) (n := 5044031582654955)
    (by norm_num) (by norm_num) (by norm_num) ?_
  · rw [h]
    norm_num
  · have harg : (3602879701896397 / 2 ^ 51 : ℚ) *
        (3152519739159347 / 2 ^ 52) / 2 ^ ((0 : ℤ) - 52) =
        11358149378044935347338468172759 / 2251799813685248 := by
      norm_num
    unfold round_half_even
    rw [harg]
    norm_num

/-- Binary64 evaluation of the division of that product by (double 0.7). -/
theorem round64_div_step :
    round64 ((5044031582654955 / 2 ^ 52 : ℚ) / (3152519739159347 / 2 ^ 52)) =
      7205759403792793 / 2 ^ 52 := by
  have h := round64_pos_eval
    (x := (5044031582654955 / 2 ^ 52 : ℚ) / (3152519739159347 / 2 ^ 52))
    (e := 0) (n := 7205759403792793)
    (by norm_num) (by norm_num) (by norm_num) ?_
  · rw [h]
    norm_num
  · have harg : (5044031582654955 / 2 ^ 52 : ℚ) /
        (3152519739159347 / 2 ^ 52) / 2 ^ ((0 : ℤ) - 52) =
        22716298756089868532949115207680 / 3152519739159347 := by
      norm_num
    unfold round_half_even
    rw [harg]
    norm_num

/-- C10 (code bug).  The source toggles carrying_food by multiplying and
then dividing max_velocity by the literal 0.7 on IEEE doubles instead of
storing the base value once as the spec requires.  In exact arithmetic the
on-off round trip would be the identity (first conjunct), but under
binary64 rounding it is not: for an ant whose max_velocity is the double
1.6 = 3602879701896397 / 2^51 — exactly the max velocity the source gives a
soldier, since 2.0 * 0.8 evaluates to the double 1.6 — the round trip
returns 7205759403792793 / 2^52, one unit in the last place below the
original value. -/
theorem carrying_food_roundtrip_float_failure :
    (∀ a : Ant,
      (set_carrying_food (set_carrying_food a true) false).max_velocity =
        a.max_velocity) ∧
    round64 (0.7 : ℚ) = 3152519739159347 / 2 ^ 52 ∧
    soldier_speed_ant.max_velocity = 3602879701896397 / 2 ^ 51 ∧
    (set_carrying_food_f64 (set_carrying_food_f64 soldier_speed_ant true)
        false).max_velocity = 7205759403792793 / 2 ^ 52 ∧
    (7205759403792793 / 2 ^ 52 : ℚ) ≠ 3602879701896397 / 2 ^ 51 := by
  refine ⟨set_carrying_food_cycle_max_velocity, round64_seven_tenths, rfl,
    ?_, by norm_num⟩
  show round64 (round64 ((3602879701896397 / 2 ^ 51 : ℚ) * round64 0.7) /
    round64 0.7) = 7205759403792793 / 2 ^ 52
  rw [round64_seven_tenths, round64_mul_step, round64_div_step]

/-! ## Colony lemmas -/

theorem get_caste_food_cost_pos (k : AntCaste) : 0 < get_caste_food_cost k := by
  cases k <;> norm_num [get_caste_food_cost]

theorem spawn_ant_of_fail (c : Colony) (k : AntCaste)
    (h : c.max_population ≤ c.population ∨
         c.food_storage < get_caste_food_cost k) :
    spawn_ant c k = (none, c) := by
  unfold spawn_ant
  rcases h with h | h
  · rw [if_pos h]
  · by_cases hp : c.max_population ≤ c.population
    · rw [if_pos hp]
    · rw [if_neg hp, if_pos h]

theorem spawn_ant_of_success (c : Colony) (k : AntCaste)
    (hp : c.population < c.max_population)
    (hf : get_caste_food_cost k ≤ c.food_storage) :
    spawn_ant c k =
      (some k,
       { c with ants := c.ants ++ [k],
                total_ants_spawned := c.total_ants_spawned + 1,
                food_storage := c.food_storage - get_caste_food_cost k }) := by
  unfold spawn_ant
  rw [if_neg (not_le.mpr hp), if_neg (not_lt.mpr hf)]

theorem affordable_zero_of_lt {food cost : ℚ} (hc : 0 < cost)
    (h : food < cost) : (⌊food / cost⌋).toNat = 0 := by
  have h1 : food / cost < 1 := (div_lt_one hc).mpr h
  have h2 : ⌊food / cost⌋ < 1 := Int.floor_lt.mpr (by exact_mod_cast h1)
  omega

theorem affordable_pos_of_le {food cost : ℚ} (hc : 0 < cost)
    (h : cost ≤ food) : 1 ≤ ⌊food / cost⌋ := by
  have : (1 : ℚ) ≤ food / cost := (one_le_div hc).mpr h
  exact_mod_cast Int.le_floor.mpr (by exact_mod_cast this)

theorem affordable_sub_one {food cost : ℚ} (hc : 0 < cost) :
    ⌊(food - cost) / cost⌋ = ⌊food / cost⌋ - 1 := by
  have : (food - cost) / cost = food / cost - 1 := by
    field_simp
  rw [this]
  exact_mod_cast Int.floor_sub_int (food / cost) 1

theorem spawn_ant_success_state (c : Colony) (k : AntCaste)
    (hp : c.population < c.max_population)
    (hf : get_caste_food_cost k ≤ c.food_storage) :
    (spawn_ant c k).1 = some k ∧
    (spawn_ant c k).2.food_storage = c.food_storage - get_caste_food_cost k ∧
    (spawn_ant c k).2.ants = c.ants ++ [k] ∧
    (spawn_ant c k).2.max_population = c.max_population ∧
    (spawn_ant c k).2.population = c.population + 1 := by
  rw [spawn_ant_of_success c k hp hf]
  simp [Colony.population]

theorem spawn_multiple_ants_succ_fail (c : Colony) (k : AntCaste) (n : ℕ)
    (h : c.max_population ≤ c.population ∨
         c.food_storage < get_caste_food_cost k) :
    spawn_multiple_ants c k (n + 1) = ([], c) := by
  unfold spawn_multiple_ants
  rw [spawn_ant_of_fail c k h]

theorem spawn_multiple_ants_succ_ok (c : Colony) (k : AntCaste) (n : ℕ)
    {s : Colony} (hs : spawn_ant c k = (some k, s)) :
    spawn_multiple_ants c k (n + 1) =
      (k :: (spawn_multiple_ants s k n).1, (spawn_multiple_ants s k n).2) := by
  conv_lhs => unfold spawn_multiple_ants
  rw [hs]

theorem spawn_multiple_ants_length (k : AntCaste) :
    ∀ (count : ℕ) (c : Colony),
    (spawn_multiple_ants c k count).1.length =
      min count (min (c.max_population - c.population)
                     (⌊c.food_storage / get_caste_food_cost k⌋.toNat)) := by
  intro count
  induction count with
  | zero => intro c; simp [spawn_multiple_ants]
  | succ n ih =>
    intro c
    by_cases hp : c.max_population ≤ c.population
    · rw [spawn_multiple_ants_succ_fail c k n (Or.inl hp)]
      have h0 : c.max_population - c.population = 0 := by omega
      simp [h0]
    · by_cases hf : c.food_storage < get_caste_food_cost k
      · rw [spawn_multiple_ants_succ_fail c k n (Or.inr hf)]
        have h0 : (⌊c.food_storage / get_caste_food_cost k⌋).toNat = 0 :=
          affordable_zero_of_lt (get_caste_food_cost_pos k) hf
        simp [h0]
      · push_neg at hp hf
        obtain ⟨s, hs⟩ : ∃ s, spawn_ant c k = (some k, s) :=
          ⟨_, spawn_ant_of_success c k hp hf⟩
        have hfields := spawn_ant_success_state c k hp hf
        rw [hs] at hfields
        obtain ⟨-, hfood, -, hmax, hpop⟩ := hfields
        rw [spawn_multiple_ants_succ_ok c k n hs]
        have hrec := ih s
        rw [hmax, hpop, hfood,
          affordable_sub_one (get_caste_food_cost_pos k)] at hrec
        simp only [List.length_cons, hrec]
        have hB : 1 ≤ ⌊c.food_storage / get_caste_food_cost k⌋ :=
          affordable_pos_of_le (get_caste_food_cost_pos k) hf
        omega

theorem spawn_multiple_ants_food (k : AntCaste) :
    ∀ (count : ℕ) (c : Colony),
    (spawn_multiple_ants c k count).2.food_storage =
      c.food_storage -
        ((spawn_multiple_ants c k count).1.length : ℚ) * get_caste_food_cost k := by
  intro count
  induction count with
  | zero => intro c; simp [spawn_multiple_ants]
  | succ n ih =>
    intro c
    by_cases hfail : c.max_population ≤ c.population ∨
        c.food_storage < get_caste_food_cost k
    · rw [spawn_multiple_ants_succ_fail c k n hfail]
      simp
    · push_neg at hfail
      obtain ⟨hp, hf⟩ := hfail
      obtain ⟨s, hs⟩ : ∃ s, spawn_ant c k = (some k, s) :=
        ⟨_, spawn_ant_of_success c k hp hf⟩
      have hfields := spawn_ant_success_state c k hp hf
      rw [hs] at hfields
      obtain ⟨-, hfood, -, -, -⟩ := hfields
      rw [spawn_multiple_ants_succ_ok c k n hs]
      rw [ih, hfood]
      simp only [List.length_cons]
      push_cast
      ring

/-- C4, amended.  A lay_egg call on a colony whose population + eggs + pupae
is at (or above) max_population fails and leaves the colony unchanged, and a
lay_egg call never raises that sum above max_population; the claimed global
bound fails for other operations, because spawn_ant checks only the adult
population (see the counterexample). -/
theorem lay_egg_capacity_spec (c : Colony) (k : AntCaste) :
    (c.max_population ≤ c.brood_total → lay_egg c k = (false, c)) ∧
    (c.brood_total ≤ c.max_population →
      (lay_egg c k).2.brood_total ≤ c.max_population) := by
  constructor
  · intro h
    unfold lay_egg
    rw [if_pos (show c.max_population ≤
      c.population + c.eggs.length + c.pupae.length from h)]
  · intro h
    unfold lay_egg
    by_cases hc : c.max_population ≤ c.population + c.eggs.length + c.pupae.length
    · rw [if_pos hc]
      exact h
    · rw [if_neg hc]
      push_neg at hc
      unfold Colony.brood_total Colony.population at *
      simp only [List.length_append, List.length_cons, List.length_nil]
      omega

/-- Witness for lay_egg_capacity_spec at a colony at capacity. -/
theorem lay_egg_capacity_witness :
    lay_egg (Colony.init 0) .worker = (false, Colony.init 0) ∧
    (lay_egg (Colony.init 0) .worker).2.brood_total ≤ 0 := by
  have h := lay_egg_capacity_spec (Colony.init 0) .worker
  exact ⟨h.1 (Nat.le_refl 0), h.2 (Nat.le_refl 0)⟩

/-- C4, counterexample to the claim as stated: on a colony with
max_population = 2, two lay_egg calls followed by one spawn_ant call reach a
state where population + eggs + pupae = 3 exceeds max_population, because
spawn_ant checks only the adult population against the cap. -/
theorem colony_cap_counterexample :
    (apply_ops (Colony.init 2)
      [.lay .worker, .lay .worker, .spawn .worker]).max_population = 2 ∧
    (apply_ops (Colony.init 2)
      [.lay .worker, .lay .worker, .spawn .worker]).brood_total = 3 := by
  constructor <;> rfl

/-- C5: spawn_ant checks the per-caste food cost (Worker 10, Soldier 15,
Scout 12, Nurse 8) and the population cap, returns none with the colony
unchanged when either check fails, and on success deducts exactly the cost
while appending the ant; spawn_multiple_ants spawns exactly the number
affordable under food and capacity (the minimum of the request, the free
capacity, and the floor of storage over cost) and charges exactly for the
ants created; and the spec scenario: a colony with max_population 5 and zero
food fails to spawn a worker, and after receive_food 100 a worker spawn
succeeds with storage dropping from 100 to 90. -/
theorem spawn_ant_economy_spec (c : Colony) (k : AntCaste) (n : ℕ) :
    (get_caste_food_cost .worker = 10 ∧ get_caste_food_cost .soldier = 15 ∧
      get_caste_food_cost .scout = 12 ∧ get_caste_food_cost .nurse = 8) ∧
    (c.max_population ≤ c.population ∨
        c.food_storage < get_caste_food_cost k →
      spawn_ant c k = (none, c)) ∧
    (c.population < c.max_population →
      get_caste_food_cost k ≤ c.food_storage →
      (spawn_ant c k).1 = some k ∧
      (spawn_ant c k).2.food_storage = c.food_storage - get_caste_food_cost k ∧
      (spawn_ant c k).2.ants = c.ants ++ [k]) ∧
    ((spawn_multiple_ants c k n).1.length =
      min n (min (c.max_population - c.population)
        (⌊c.food_storage / get_caste_food_cost k⌋.toNat))) ∧
    ((spawn_multiple_ants c k n).2.food_storage =
      c.food_storage - ((spawn_multiple_ants c k n).1.length : ℚ) *
        get_caste_food_cost k) ∧
    (spawn_ant { Colony.init 5 with food_storage := 0 } .worker =
      (none, { Colony.init 5 with food_storage := 0 }) ∧
     (spawn_ant (receive_food { Colony.init 5 with food_storage := 0 } 100).2
        .worker).1 = some .worker ∧
     (receive_food { Colony.init 5 with food_storage := 0 } 100).2.food_storage
        = 100 ∧
     (spawn_ant (receive_food { Colony.init 5 with food_storage := 0 } 100).2
        .worker).2.food_storage = 90) := by
  refine ⟨⟨rfl, rfl, rfl, rfl⟩, spawn_ant_of_fail c k, ?_,
    spawn_multiple_ants_length k n c, spawn_multiple_ants_food k n c,
    ?_, ?_, ?_, ?_⟩
  · intro hp hf
    have h := spawn_ant_success_state c k hp hf
    exact ⟨h.1, h.2.1, h.2.2.1⟩
  · rfl
  all_goals
    have hfs : (receive_food { Colony.init 5 with food_storage := 0 }
        100).2.food_storage = 100 := by
      norm_num [receive_food, Colony.init]
    have hsucc := spawn_ant_of_success
      (receive_food { Colony.init 5 with food_storage := 0 } 100).2 .worker
      (by norm_num [receive_food, Colony.init, Colony.population])
      (by rw [hfs]; norm_num [get_caste_food_cost])
  · rw [hsucc]
  · exact hfs
  · rw [hsucc, hfs]
    norm_num [get_caste_food_cost]

/-- Witness for spawn_ant_economy_spec: a fresh colony with capacity 5 and
the default storage affords a worker, and the spawn deducts exactly 10. -/
theorem spawn_ant_economy_witness :
    (spawn_ant (Colony.init 5) .worker).1 = some .worker ∧
    (spawn_ant (Colony.init 5) .worker).2.food_storage = 81000 - 10 := by
  have h := (spawn_ant_economy_spec (Colony.init 5) .worker 0).2.2.1
    (by norm_num [Colony.init, Colony.population])
    (by norm_num [Colony.init, get_caste_food_cost])
  exact ⟨h.1, h.2.1⟩

/-! ## Pheromone field lemmas -/

section PheromoneFieldProofs

open Classical

theorem mem_int_range {lo hi a : ℤ} :
    a ∈ int_range lo hi ↔ lo ≤ a ∧ a < hi := by
  unfold int_range
  constructor
  · intro h
    obtain ⟨i, hi1, hi2⟩ := List.mem_map.mp h
    rw [List.mem_range] at hi1
    omega
  · intro h
    apply List.mem_map.mpr
    exact ⟨(a - lo).toNat, List.mem_range.mpr (by omega), by omega⟩

theorem mem_get_nearby_cells {position : ℝ × ℝ} {radius : ℝ}
    {cell : ℤ × ℤ} :
    cell ∈ get_nearby_cells position radius ↔
      |cell.1 - (get_cell_key position).1| ≤ ⌊radius / 40⌋ + 1 ∧
      |cell.2 - (get_cell_key position).2| ≤ ⌊radius / 40⌋ + 1 := by
  unfold get_nearby_cells
  simp only [List.mem_flatMap, List.mem_map, mem_int_range]
  constructor
  · rintro ⟨dx, ⟨hdx1, hdx2⟩, dy, ⟨hdy1, hdy2⟩, rfl⟩
    rw [abs_le, abs_le]
    constructor <;> constructor <;> simp <;> omega
  · rintro ⟨h1, h2⟩
    rw [abs_le] at h1 h2
    refine ⟨cell.1 - (get_cell_key position).1, by omega,
      cell.2 - (get_cell_key position).2, by omega, ?_⟩
    simp

theorem floor_sub_le_of_sub_le {x y r : ℝ} (h : x - y ≤ r) :
    ⌊x / 40⌋ - ⌊y / 40⌋ ≤ ⌊r / 40⌋ + 1 := by
  have h40 : (0:ℝ) < 40 := by norm_num
  have h1 : (⌊x / 40⌋ : ℝ) ≤ x / 40 := Int.floor_le _
  have h2 : y / 40 < ⌊y / 40⌋ + 1 := Int.lt_floor_add_one _
  have h4 : r / 40 < ⌊r / 40⌋ + 1 := Int.lt_floor_add_one _
  have h3 : x / 40 - y / 40 ≤ r / 40 := by
    rw [div_sub_div_same]
    gcongr
  have h5 : ((⌊x / 40⌋ - ⌊y / 40⌋ : ℤ) : ℝ) < (((⌊r / 40⌋ + 2 : ℤ)) : ℝ) := by
    push_cast
    linarith
  have h6 : (⌊x / 40⌋ - ⌊y / 40⌋ : ℤ) < ⌊r / 40⌋ + 2 := by exact_mod_cast h5
  omega

theorem cell_offset_bound {x y r : ℝ} (h : |x - y| ≤ r) :
    |⌊x / 40⌋ - ⌊y / 40⌋| ≤ ⌊r / 40⌋ + 1 := by
  rw [abs_le] at h
  rw [abs_le]
  constructor
  · have := floor_sub_le_of_sub_le (show y - x ≤ r by linarith)
    omega
  · exact floor_sub_le_of_sub_le (by linarith)

theorem abs_comp_le_distance (p : Pheromone) (position : ℝ × ℝ) :
    |position.1 - p.position.1| ≤ distance_to p position ∧
    |position.2 - p.position.2| ≤ distance_to p position := by
  unfold distance_to
  constructor
  · rw [← Real.sqrt_sq_eq_abs]
    apply Real.sqrt_le_sqrt
    nlinarith [mul_self_nonneg (position.2 - p.position.2)]
  · rw [← Real.sqrt_sq_eq_abs]
    apply Real.sqrt_le_sqrt
    nlinarith [mul_self_nonneg (position.1 - p.position.1)]

/-- Membership characterization of get_pheromones_in_range: exactly the
stored pheromones of matching type whose influence radius covers the query
point and whose distance to the query point is at most the query radius.
The right-to-left direction is the grid-coverage argument: a pheromone
within the query radius lies in a cell at most
`int(radius // cellSize) + 1` rings away, which the scan visits. -/
theorem mem_get_pheromones_in_range {m : PheromoneManager}
    {position : ℝ × ℝ} {radius : ℝ} {tf : Option PheromoneType}
    {p : Pheromone} :
    p ∈ get_pheromones_in_range m position radius tf ↔
      p ∈ m.pheromones ∧ matches_filter tf p = true ∧
        is_within_range p position ∧ distance_to p position ≤ radius := by
  unfold get_pheromones_in_range spatial_grid
  simp only [List.mem_flatMap, List.mem_filter, Bool.and_eq_true,
    decide_eq_true_eq]
  constructor
  · rintro ⟨cell, -, ⟨hmem, -⟩, ⟨hfil, hwithin⟩, hdist⟩
    exact ⟨hmem, hfil, hwithin, hdist⟩
  · rintro ⟨hmem, hfil, hwithin, hdist⟩
    refine ⟨get_cell_key p.position, ?_, ⟨hmem, rfl⟩, ⟨hfil, hwithin⟩, hdist⟩
    rw [mem_get_nearby_cells]
    have habs := abs_comp_le_distance p position
    unfold get_cell_key
    constructor
    · refine cell_offset_bound (le_trans ?_ hdist)
      rw [abs_sub_comm]
      exact habs.1
    · refine cell_offset_bound (le_trans ?_ hdist)
      rw [abs_sub_comm]
      exact habs.2

/-- C6, amended.  QueryInRange returns exactly the pheromones of the
requested type whose current influence radius covers the query point AND
whose distance to the query point is within the query radius (both bounds,
not the larger of the two), scanning only grid cells within
int(radius // cellSize) + 1 rings of the query point's cell. -/
theorem query_in_range_spec (m : PheromoneManager) (position : ℝ × ℝ)
    (radius : ℝ) (tf : Option PheromoneType) (p : Pheromone) :
    (p ∈ get_pheromones_in_range m position radius tf ↔
      p ∈ m.pheromones ∧ matches_filter tf p = true ∧
        is_within_range p position ∧ distance_to p position ≤ radius) ∧
    (∀ cell ∈ get_nearby_cells position radius,
      |cell.1 - (get_cell_key position).1| ≤ ⌊radius / 40⌋ + 1 ∧
      |cell.2 - (get_cell_key position).2| ≤ ⌊radius / 40⌋ + 1) :=
  ⟨mem_get_pheromones_in_range, fun _ hc => mem_get_nearby_cells.mp hc⟩

/-- Witness for query_in_range_spec: the query point's own cell is scanned
and lies within the ring bound for radius 5. -/
theorem query_in_range_witness :
    ((0, 0) : ℤ × ℤ) ∈ get_nearby_cells ((0 : ℝ), (0 : ℝ)) 5 ∧
    |((0 : ℤ)) - (get_cell_key ((0 : ℝ), (0 : ℝ))).1| ≤ ⌊(5 : ℝ) / 40⌋ + 1 := by
  have hmem : ((0, 0) : ℤ × ℤ) ∈ get_nearby_cells ((0 : ℝ), (0 : ℝ)) 5 := by
    rw [mem_get_nearby_cells]
    unfold get_cell_key
    norm_num
  refine ⟨hmem, ?_⟩
  have h := (query_in_range_spec PheromoneManager.init ((0 : ℝ), (0 : ℝ)) 5
    none (Pheromone.init (0, 0) .food_trail)).2 (0, 0) hmem
  exact h.1

/-- C6, counterexample to the claim as stated: with query radius 5, a
pheromone at distance 10 with influence radius 20 satisfies the spec
condition (influence covers the point and the distance is within the larger
of the two radii) but is not returned, because the code also requires the
distance to be within the query radius. -/
theorem query_in_range_counterexample :
    spec_query_qualifies (Pheromone.init (10, 0) .food_trail) (0, 0) 5 ∧
    Pheromone.init (10, 0) .food_trail ∈
      (add_pheromone PheromoneManager.init (10, 0) .food_trail).1.pheromones ∧
    Pheromone.init (10, 0) .food_trail ∉
      get_pheromones_in_range
        (add_pheromone PheromoneManager.init (10, 0) .food_trail).1
        (0, 0) 5 (some .food_trail) := by
  have hd : distance_to (Pheromone.init (10, 0) .food_trail) (0, 0) = 10 := by
    show Real.sqrt (((0 : ℝ) - 10) * ((0 : ℝ) - 10) +
      ((0 : ℝ) - 0) * ((0 : ℝ) - 0)) = 10
    rw [show ((0 : ℝ) - 10) * ((0 : ℝ) - 10) +
        ((0 : ℝ) - 0) * ((0 : ℝ) - 0) = 10 ^ 2 by norm_num]
    exact Real.sqrt_sq (by norm_num)
  have hr : (Pheromone.init (10, 0) .food_trail).radius_of_influence = 20 :=
    rfl
  refine ⟨⟨?_, ?_⟩, ?_, ?_⟩
  · rw [hd, hr]
    norm_num
  · rw [hd, hr]
    simp only [le_max_iff]
    norm_num
  · simp [add_pheromone, PheromoneManager.init]
  · intro hmem
    have h := (mem_get_pheromones_in_range.mp hmem).2.2.2
    rw [hd] at h
    norm_num at h

theorem gradient_step_of_dist_zero {position : ℝ × ℝ} {p : Pheromone}
    (h : distance_to p position = 0) (acc : ℝ × ℝ) :
    gradient_step position acc p = acc := by
  unfold gradient_step
  rw [if_pos h]

theorem gradient_sum_eq_zero {position : ℝ × ℝ} {l : List Pheromone}
    (h : ∀ p ∈ l, distance_to p position = 0) :
    gradient_sum position l = (0, 0) := by
  unfold gradient_sum
  suffices hgen : ∀ (l' : List Pheromone),
      (∀ p ∈ l', distance_to p position = 0) → ∀ acc : ℝ × ℝ,
      l'.foldl (gradient_step position) acc = acc from hgen l h (0, 0)
  intro l' hl'
  induction l' with
  | nil => intro acc; rfl
  | cons q t ih =>
    intro acc
    rw [List.foldl_cons,
      gradient_step_of_dist_zero (hl' q (List.mem_cons_self q t)) acc]
    exact ih (fun p hp => hl' p (List.mem_cons_of_mem q hp)) acc

theorem normalize_gradient_zero : normalize_gradient (0, 0) = none := by
  unfold normalize_gradient
  norm_num

/-- The absent case of get_pheromone_direction, characterized: none exactly
when the summed gradient over the pheromones in range is the zero vector
(which covers the case of no pheromone in range). -/
theorem get_pheromone_direction_none_iff (m : PheromoneManager)
    (position : ℝ × ℝ) (t : PheromoneType) (radius : ℝ) :
    get_pheromone_direction m position t radius = none ↔
      gradient_sum position
        (get_pheromones_in_range m position radius (some t)) = (0, 0) := by
  unfold get_pheromone_direction
  by_cases hn : get_pheromones_in_range m position radius (some t) = []
  · rw [if_pos hn, hn]
    simp [gradient_sum]
  · rw [if_neg hn]
    unfold normalize_gradient
    set g := gradient_sum position
      (get_pheromones_in_range m position radius (some t)) with hg
    constructor
    · intro h
      by_cases hL : 0 < Real.sqrt (g.1 * g.1 + g.2 * g.2)
      · rw [if_pos hL] at h
        exact absurd h (by simp)
      · push_neg at hL
        have h0 : Real.sqrt (g.1 * g.1 + g.2 * g.2) = 0 :=
          le_antisymm hL (Real.sqrt_nonneg _)
        have hs0 : g.1 * g.1 + g.2 * g.2 ≤ 0 := Real.sqrt_eq_zero'.mp h0
        have h1 : g.1 = 0 := by nlinarith [mul_self_nonneg g.1, mul_self_nonneg g.2]
        have h2 : g.2 = 0 := by nlinarith [mul_self_nonneg g.1, mul_self_nonneg g.2]
        rw [Prod.ext_iff]
        exact ⟨h1, h2⟩
    · intro h
      rw [h]
      norm_num

/-- C1, amended.  GradientAt returns either a vector of unit magnitude or an
absent value; the result is absent exactly when the summed weighted gradient
over the qualifying pheromones (those of the queried type whose influence
radius covers the point and whose distance is within the query radius) is
the zero vector — in particular whenever no pheromone of the type lies
within the query radius, but also when qualifying pheromones exist and
their contributions cancel or all sit at distance zero. -/
theorem gradient_direction_spec (m : PheromoneManager) (position : ℝ × ℝ)
    (t : PheromoneType) (radius : ℝ) :
    (∀ v, get_pheromone_direction m position t radius = some v →
      Real.sqrt (v.1 * v.1 + v.2 * v.2) = 1) ∧
    (get_pheromone_direction m position t radius = none ↔
      gradient_sum position
        (get_pheromones_in_range m position radius (some t)) = (0, 0)) ∧
    ((∀ p ∈ m.pheromones, p.type = t → ¬ distance_to p position ≤ radius) →
      get_pheromone_direction m position t radius = none) := by
  refine ⟨?_, get_pheromone_direction_none_iff m position t radius, ?_⟩
  · intro v hv
    unfold get_pheromone_direction at hv
    by_cases hn : get_pheromones_in_range m position radius (some t) = []
    · rw [if_pos hn] at hv
      exact absurd hv (by simp)
    · rw [if_neg hn] at hv
      unfold normalize_gradient at hv
      set g := gradient_sum position
        (get_pheromones_in_range m position radius (some t)) with hg
      by_cases hL : 0 < Real.sqrt (g.1 * g.1 + g.2 * g.2)
      · rw [if_pos hL] at hv
        have hv' := Option.some.inj hv
        have hS : 0 < g.1 * g.1 + g.2 * g.2 := by
          by_contra hS0
          push_neg at hS0
          rw [Real.sqrt_eq_zero_of_nonpos hS0] at hL
          exact lt_irrefl 0 hL
        have hmul : Real.sqrt (g.1 * g.1 + g.2 * g.2) *
            Real.sqrt (g.1 * g.1 + g.2 * g.2) = g.1 * g.1 + g.2 * g.2 :=
          Real.mul_self_sqrt (le_of_lt hS)
        rw [← hv']
        simp only []
        rw [div_mul_div_comm, div_mul_div_comm, div_add_div_same, hmul,
          div_self (ne_of_gt hS), Real.sqrt_one]
      · rw [if_neg hL] at hv
        exact absurd hv (by simp)
  · intro h
    rw [get_pheromone_direction_none_iff]
    have hnil : get_pheromones_in_range m position radius (some t) = [] := by
      rw [List.eq_nil_iff_forall_not_mem]
      intro p hp
      have hm := mem_get_pheromones_in_range.mp hp
      have htype : p.type = t := by
        have hf := hm.2.1
        unfold matches_filter at hf
        exact of_decide_eq_true hf
      exact h p hm.1 htype hm.2.2.2
    rw [hnil]
    rfl

/-- Witness for gradient_direction_spec: on an empty manager the gradient
query returns the absent value. -/
theorem gradient_direction_witness :
    get_pheromone_direction PheromoneManager.init (0, 0) .food_trail 50 =
      none := by
  refine (gradient_direction_spec PheromoneManager.init (0, 0) .food_trail
    50).2.2 ?_
  intro p hp
  simp [PheromoneManager.init] at hp

/-- C1, counterexample to the claim as stated: a pheromone deposited exactly
at the query position lies within the query radius, yet the gradient query
returns the absent value, because the loop skips pheromones at distance
zero and the summed gradient is then the zero vector. -/
theorem gradient_direction_counterexample :
    (∃ p ∈ (add_pheromone PheromoneManager.init (100, 100)
        .food_trail).1.pheromones,
      p.type = .food_trail ∧ distance_to p (100, 100) ≤ 10) ∧
    get_pheromone_direction
      (add_pheromone PheromoneManager.init (100, 100) .food_trail).1
      (100, 100) .food_trail 10 = none := by
  have hd : distance_to (Pheromone.init (100, 100) .food_trail)
      (100, 100) = 0 := by
    show Real.sqrt (((100 : ℝ) - 100) * ((100 : ℝ) - 100) +
      ((100 : ℝ) - 100) * ((100 : ℝ) - 100)) = 0
    norm_num
  constructor
  · refine ⟨Pheromone.init (100, 100) .food_trail, ?_, rfl, ?_⟩
    · simp [add_pheromone, PheromoneManager.init]
    · rw [hd]
      norm_num
  · rw [get_pheromone_direction_none_iff]
    apply gradient_sum_eq_zero
    intro p hp
    have hm := mem_get_pheromones_in_range.mp hp
    have hp0 : p = Pheromone.init (100, 100) .food_trail := by
      simpa [add_pheromone, PheromoneManager.init] using hm.1
    rw [hp0]
    exact hd

/-- Witness for heading_update_spec: a snap within the turn speed stores the
target angle, and set_orientation normalizes 725 into [0, 360). -/
theorem heading_update_witness :
    (turn_towards (Ant.init (0, 0) 10) 12).orientation = 12 ∧
    0 ≤ (set_orientation (Ant.init (0, 0) 10) 725).orientation ∧
    (set_orientation (Ant.init (0, 0) 10) 725).orientation < 360 := by
  have h := heading_update_spec (Ant.init (0, 0) 10) 725 12 0
  refine ⟨h.2.2.2.1 ?_, h.1.1, h.1.2⟩
  have ho : (Ant.init (0, 0) 10).orientation = 10 := rfl
  have hts : (Ant.init (0, 0) 10).turn_speed = 3 := rfl
  have hd : angle_diff (Ant.init (0, 0) 10) 12 = 2 := by
    unfold angle_diff
    rw [ho]
    norm_num [fmod]
  rw [hd, hts]
  norm_num

/-- C7, amended.  add_pheromone never rejects or raises, but it also does
not clamp: the strength, decay rate and influence radius are stored
verbatim, so negative inputs propagate into the created pheromone (see the
counterexample). -/
theorem deposit_stores_verbatim (m : PheromoneManager) (position : ℝ × ℝ)
    (t : PheromoneType) (strength decay_rate radius_of_influence : ℝ) :
    (add_pheromone m position t strength decay_rate
      radius_of_influence).2.strength = strength ∧
    (add_pheromone m position t strength decay_rate
      radius_of_influence).2.max_strength = strength ∧
    (add_pheromone m position t strength decay_rate
      radius_of_influence).2.decay_rate = decay_rate ∧
    (add_pheromone m position t strength decay_rate
      radius_of_influence).2.radius_of_influence = radius_of_influence ∧
    (add_pheromone m position t strength decay_rate
      radius_of_influence).1.pheromones =
      m.pheromones ++
        [(add_pheromone m position t strength decay_rate
          radius_of_influence).2] :=
  ⟨rfl, rfl, rfl, rfl, rfl⟩

/-- C7, counterexample to the claim as stated: depositing with strength -1,
decay -2 and radius -3 is accepted and creates a pheromone whose strength,
decay rate and radius are negative — nothing is clamped to zero or a safe
minimum. -/
theorem deposit_clamping_counterexample :
    (add_pheromone PheromoneManager.init (0, 0) .food_trail (-1) (-2)
      (-3)).2.strength = -1 ∧
    ¬ 0 ≤ (add_pheromone PheromoneManager.init (0, 0) .food_trail (-1) (-2)
      (-3)).2.strength ∧
    (add_pheromone PheromoneManager.init (0, 0) .food_trail (-1) (-2)
      (-3)).2.decay_rate = -2 ∧
    ¬ 0 ≤ (add_pheromone PheromoneManager.init (0, 0) .food_trail (-1) (-2)
      (-3)).2.decay_rate ∧
    (add_pheromone PheromoneManager.init (0, 0) .food_trail (-1) (-2)
      (-3)).2.radius_of_influence = -3 ∧
    ¬ 0 ≤ (add_pheromone PheromoneManager.init (0, 0) .food_trail (-1) (-2)
      (-3)).2.radius_of_influence := by
  have h1 : (add_pheromone PheromoneManager.init (0, 0) .food_trail (-1) (-2)
      (-3)).2.strength = -1 := rfl
  have h2 : (add_pheromone PheromoneManager.init (0, 0) .food_trail (-1) (-2)
      (-3)).2.decay_rate = -2 := rfl
  have h3 : (add_pheromone PheromoneManager.init (0, 0) .food_trail (-1) (-2)
      (-3)).2.radius_of_influence = -3 := rfl
  refine ⟨h1, ?_, h2, ?_, h3, ?_⟩
  · rw [h1]; norm_num
  · rw [h2]; norm_num
  · rw [h3]; norm_num

theorem update_iterate_radius (n : ℕ) :
    ∀ p : Pheromone, (Pheromone.update^[n] p).radius_of_influence =
      p.radius_of_influence := by
  induction n with
  | zero => intro p; rfl
  | succ k ih =>
    intro p
    rw [Function.iterate_succ_apply]
    exact ih (Pheromone.update p)

/-- C8, amended.  The influence radius stored in a pheromone never changes:
decay ticks, reinforcement and spread marking all leave it at the initial
radius, for any decay fraction.  It is therefore (trivially) non-decreasing
in the decay fraction and equals the initial radius at full strength, but
it does NOT grow to 1.5 times the initial radius at zero strength (see the
counterexample). -/
theorem influence_radius_constant_spec (p : Pheromone) (n : ℕ) (x : ℝ) :
    (Pheromone.update^[n] p).radius_of_influence = p.radius_of_influence ∧
    (reinforce p x).radius_of_influence = p.radius_of_influence ∧
    (mark_as_spread p).radius_of_influence = p.radius_of_influence :=
  ⟨update_iterate_radius n p, rfl, rfl⟩

/-- C8, counterexample to the claim as stated: a pheromone created with
strength 100, decay rate 100 and radius 20 reaches strength 0 after one
update, but its influence radius is still 20, not 1.5 * 20. -/
theorem influence_radius_counterexample :
    (Pheromone.update (Pheromone.init (0, 0) .food_trail 100 100
      20)).strength = 0 ∧
    (Pheromone.update (Pheromone.init (0, 0) .food_trail 100 100
      20)).radius_of_influence = 20 ∧
    (Pheromone.update (Pheromone.init (0, 0) .food_trail 100 100
      20)).radius_of_influence ≠ 1.5 * 20 := by
  have h1 : (Pheromone.update (Pheromone.init (0, 0) .food_trail 100 100
      20)).strength = (100 : ℝ) - 100 := rfl
  have h2 : (Pheromone.update (Pheromone.init (0, 0) .food_trail 100 100
      20)).radius_of_influence = 20 := rfl
  refine ⟨by rw [h1]; norm_num, h2, by rw [h2]; norm_num⟩

/-! ## Spreading lemmas -/

theorem mem_spread_children {wb : WorldBounds} {p : Pheromone} {now : ℝ}
    {c : Pheromone} :
    c ∈ spread_children wb p now ↔
      ∃ i < 8, in_world_bounds wb (spread_child_position p i) ∧
        c = spread_child p (spread_child_position p i) now := by
  unfold spread_children
  simp only [List.mem_map, List.mem_filter, List.mem_range,
    decide_eq_true_eq]
  constructor
  · rintro ⟨i, ⟨hi, hb⟩, rfl⟩
    exact ⟨i, hi, hb, rfl⟩
  · rintro ⟨i, hi, hb, rfl⟩
    exact ⟨i, ⟨hi, hb⟩, rfl⟩

theorem not_should_spread_of_has_spread {q : Pheromone}
    (h : q.has_spread = true) (now : ℝ) : ¬ should_spread q now := by
  rintro ⟨-, h2, -, -⟩
  rw [h] at h2
  cases h2

theorem create_spread_deposits_eq_of_get {m : PheromoneManager} {i : ℕ}
    {p : Pheromone} (now : ℝ) (hp : m.pheromones.get? i = some p) :
    create_spread_deposits m i now =
      if should_spread p now then
        { m with
            pheromones := m.pheromones.set i (mark_as_spread p) ++
              spread_children m.world_bounds p now }
      else m := by
  unfold create_spread_deposits
  rw [hp]

/-- C2: a pheromone that should spread at a field tick (canSpread, not yet
spread, not itself a spread deposit, age at least spreadDelay) spreads by
appending one child per angle index whose position on the spreadRadius
circle falls inside the world bounds — so exactly 8 children unless some
positions are out of bounds — each child carrying strength =
parentMaxStrength x spreadStrengthFactor, the parent's decay rate,
influence radius = 0.8 x the parent's (constant) current radius,
canSpread = false and isSpreadDeposit = true; the parent is marked as
having spread, the mark makes should_spread false forever, and no operation
(decay update or reinforcement) ever clears the mark, so spreading happens
at most once. -/
theorem spread_once_spec (m : PheromoneManager) (i : ℕ) (p : Pheromone)
    (now : ℝ) (hp : m.pheromones.get? i = some p)
    (hs : should_spread p now) :
    ((create_spread_deposits m i now).pheromones =
      m.pheromones.set i (mark_as_spread p) ++
        spread_children m.world_bounds p now) ∧
    (spread_children m.world_bounds p now).length ≤ 8 ∧
    ((∀ j < 8, in_world_bounds m.world_bounds (spread_child_position p j)) →
      (spread_children m.world_bounds p now).length = 8) ∧
    (∀ c ∈ spread_children m.world_bounds p now,
      c.strength = p.max_strength * p.spread_strength_factor ∧
      c.decay_rate = p.decay_rate ∧
      c.radius_of_influence = p.radius_of_influence * 0.8 ∧
      c.can_spread = false ∧
      c.is_spread_deposit = true ∧
      ∃ j < 8, c.position = spread_child_position p j ∧
        in_world_bounds m.world_bounds c.position) ∧
    (∀ j < 8, in_world_bounds m.world_bounds (spread_child_position p j) →
      spread_child p (spread_child_position p j) now ∈
        spread_children m.world_bounds p now) ∧
    ((mark_as_spread p).has_spread = true ∧
      ∀ now₂ : ℝ, ¬ should_spread (mark_as_spread p) now₂) ∧
    (∀ (q : Pheromone) (x : ℝ),
      (Pheromone.update q).has_spread = q.has_spread ∧
      (reinforce q x).has_spread = q.has_spread ∧
      (q.has_spread = true → ∀ now₂ : ℝ, ¬ should_spread q now₂)) ∧
    (∀ (q : Pheromone) (now₂ : ℝ),
      should_spread (Pheromone.update q) now₂ ↔ should_spread q now₂) ∧
    ((update_all m now).pheromones =
      ((m.pheromones.map Pheromone.update).map fun q =>
        if should_spread q now then mark_as_spread q else q).filter
          (fun q => decide (0 < q.strength)) ++
      (m.pheromones.map Pheromone.update).flatMap fun q =>
        if should_spread q now then spread_children m.world_bounds q now
        else []) := by
  refine ⟨?_, ?_, ?_, ?_, ?_, ⟨rfl, ?_⟩, ?_, fun q now₂ => Iff.rfl, rfl⟩
  · rw [create_spread_deposits_eq_of_get now hp, if_pos hs]
  · unfold spread_children
    rw [List.length_map]
    exact le_trans (List.length_filter_le _ _) (by rw [List.length_range])
  · intro hall
    unfold spread_children
    rw [List.length_map]
    rw [List.filter_eq_self.mpr]
    · rw [List.length_range]
    · intro a ha
      rw [List.mem_range] at ha
      exact decide_eq_true (hall a ha)
  · intro c hc
    obtain ⟨j, hj, hb, rfl⟩ := mem_spread_children.mp hc
    exact ⟨rfl, rfl, rfl, rfl, rfl, j, hj, rfl, hb⟩
  · intro j hj hb
    exact mem_spread_children.mpr ⟨j, hj, hb, rfl⟩
  · exact fun now₂ => not_should_spread_of_has_spread rfl now₂
  · exact fun q x => ⟨rfl, rfl, fun hq now₂ =>
      not_should_spread_of_has_spread hq now₂⟩

/-- Witness for spread_once_spec: a default deposit at (400, 300) created at
time 0 should spread at time 5; its children list has at most 8 entries and
the parent mark is permanent. -/
theorem spread_once_witness :
    (spread_children
      (add_pheromone PheromoneManager.init (400, 300) .food_trail).1.world_bounds
      (Pheromone.init (400, 300) .food_trail) 5).length ≤ 8 ∧
    (mark_as_spread (Pheromone.init (400, 300) .food_trail)).has_spread =
      true := by
  have h := spread_once_spec
    (add_pheromone PheromoneManager.init (400, 300) .food_trail).1 0
    (Pheromone.init (400, 300) .food_trail) 5 rfl
    ⟨rfl, rfl, rfl, by
      show (2 : ℝ) ≤ (5 : ℝ) - 0
      norm_num⟩
  exact ⟨h.2.1, h.2.2.2.2.2.1.1⟩

/-! ## Ground system lemmas (trail reinforcement) -/

theorem ground_gradient_loop_states (position : ℝ × ℝ)
    (l : List GroundPheromone) :
    (ground_gradient_loop position l).2 =
      l.map (fun p => if ground_distance_to p position = 0 then p
        else mark_usage p) := by
  unfold ground_gradient_loop
  suffices hgen : ∀ (t : List GroundPheromone)
      (acc : ((ℝ × ℝ) × ℝ) × List GroundPheromone),
      (t.foldl (ground_gradient_step position) acc).2 =
        acc.2 ++ t.map (fun p => if ground_distance_to p position = 0 then p
          else mark_usage p) by
    simpa using hgen l (((0, 0), 0), [])
  intro t
  induction t with
  | nil => intro acc; simp
  | cons q u ih =>
    intro acc
    rw [List.foldl_cons, List.map_cons, ih]
    unfold ground_gradient_step
    by_cases hq : ground_distance_to q position = 0
    · rw [if_pos hq, if_pos hq]
      simp
    · rw [if_neg hq, if_neg hq]
      simp

theorem ground_direction_states (position : ℝ × ℝ)
    (l : List GroundPheromone) :
    (ground_get_pheromone_direction position l).2 =
      l.map (fun p => if ground_distance_to p position = 0 then p
        else mark_usage p) := by
  unfold ground_get_pheromone_direction
  by_cases hl : l = []
  · rw [if_pos hl, hl]
    rfl
  · rw [if_neg hl]
    exact ground_gradient_loop_states position l

theorem mark_usage_quality_eq {p : GroundPheromone}
    (h : p.trail_quality ≤ 3) :
    (mark_usage p).trail_quality =
      p.trail_quality + (3 - p.trail_quality) * 0.1 := by
  show min 3 (p.trail_quality + (3 - p.trail_quality) * 0.1) = _
  rw [min_eq_right]
  linarith

/-- C3 (modelled from the spec for mark_usage; see the GroundPheromone
definitions): in every GradientAt computation of the ground system, each
nearby pheromone that contributes to the gradient (distance nonzero) has
its usage count incremented and its trail quality raised with diminishing
returns, and the trail quality stays within [1.0, 3.0]; pheromones at
distance zero are skipped unchanged. -/
theorem trail_reinforcement_spec (position : ℝ × ℝ)
    (l : List GroundPheromone) (p : GroundPheromone) :
    ((ground_get_pheromone_direction position l).2 =
      l.map (fun q => if ground_distance_to q position = 0 then q
        else mark_usage q)) ∧
    ((mark_usage p).usage_count = p.usage_count + 1) ∧
    (1 ≤ p.trail_quality → p.trail_quality ≤ 3 →
      p.trail_quality ≤ (mark_usage p).trail_quality ∧
      1 ≤ (mark_usage p).trail_quality ∧
      (mark_usage p).trail_quality ≤ 3 ∧
      (p.trail_quality < 3 →
        p.trail_quality < (mark_usage p).trail_quality)) ∧
    (∀ q : GroundPheromone,
      p.trail_quality ≤ q.trail_quality → q.trail_quality ≤ 3 →
      (mark_usage q).trail_quality - q.trail_quality ≤
        (mark_usage p).trail_quality - p.trail_quality) := by
  refine ⟨ground_direction_states position l, rfl, ?_, ?_⟩
  · intro h1 h3
    rw [mark_usage_quality_eq h3]
    refine ⟨by linarith, by linarith, by linarith, fun hlt => by linarith⟩
  · intro q hpq hq3
    have hp3 : p.trail_quality ≤ 3 := le_trans hpq hq3
    rw [mark_usage_quality_eq hq3, mark_usage_quality_eq hp3]
    linarith

/-- Witness for trail_reinforcement_spec at a fresh pheromone of quality
1.0: one use raises the usage count to 1 and keeps the quality in
[1.0, 3.0]. -/
theorem trail_reinforcement_witness :
    (mark_usage ⟨(0, 0), .food_trail, 50, 50, 20, 1, 0⟩).usage_count = 1 ∧
    1 ≤ (mark_usage ⟨(0, 0), .food_trail, 50, 50, 20, 1, 0⟩).trail_quality ∧
    (mark_usage ⟨(0, 0), .food_trail, 50, 50, 20, 1, 0⟩).trail_quality ≤ 3 := by
  have h := trail_reinforcement_spec (0, 0) []
    ⟨(0, 0), .food_trail, 50, 50, 20, 1, 0⟩
  have h3 := h.2.2.1 (le_refl 1) (show (1 : ℝ) ≤ 3 by norm_num)
  exact ⟨h.2.1, h3.2.1, h3.2.2.1⟩

end PheromoneFieldProofs

end AntFarm
